import Mathlib

/-!
Shallow embedding of `src/create-resource.js` from the plain-api repository
(the revision with `mergeOptions` and the `statusCode` parser argument),
together with theorems checking the specification's claims about it.

JavaScript runtime values are modelled by `JsValue` (numbers as integers,
a resolved promise as an explicit wrapper so that the promise-vs-resolved
distinction made by `await` is observable).  Objects are ordered key/value
lists, mirroring JS own-property insertion order.  Exceptions are modelled
with `Except JsError`.
-/

namespace PlainApi

/-- A JavaScript value as used by this module.  `promise v` stands for a
promise that resolves to `v`; passing it around without awaiting keeps the
wrapper, awaiting unwraps it. -/
inductive JsValue where
  | undefined
  | null
  | bool (b : Bool)
  | num (n : Int)
  | str (s : String)
  | obj (fields : List (String × JsValue))
  | promise (v : JsValue)

/-- A JavaScript plain object: own enumerable properties in insertion order. -/
abbrev JsObj := List (String × JsValue)

/-- `Object.prototype.hasOwnProperty.call (o, k)` for a plain object. -/
def hasOwn (o : JsObj) (k : String) : Bool :=
  o.any (fun p => p.1 == k)

/-- Property read `o[k]` on a plain object (`undefined` when absent). -/
def oget (o : JsObj) (k : String) : JsValue :=
  ((o.find? (fun p => p.1 == k)).map Prod.snd).getD .undefined

/-- Property write: overwriting keeps the key's original position, a fresh
key is appended, as JS insertion order prescribes. -/
def oset (o : JsObj) (k : String) (v : JsValue) : JsObj :=
  if hasOwn o k then o.map (fun p => if p.1 == k then (k, v) else p)
  else o ++ [(k, v)]

/-- `Object.keys o`. -/
def okeys (o : JsObj) : List String :=
  o.map Prod.fst

/-- Property read `v[k]` on an arbitrary value (`undefined` on non-objects). -/
def jget (v : JsValue) (k : String) : JsValue :=
  match v with
  | .obj o => oget o k
  | _ => .undefined

/-- JavaScript truthiness. -/
def truthy : JsValue → Bool
  | .undefined => false
  | .null => false
  | .bool b => b
  | .num n => n != 0
  | .str s => s != ""
  | .obj _ => true
  | .promise _ => true

/-- The object a value contributes when used where an object is expected:
`undefined` triggers the `= {}` default parameter, primitives have no own
string-keyed data properties of interest here. -/
def asParams : JsValue → JsObj
  | .obj o => o
  | _ => []

/-- `isEmptyObject` from the source: no own keys (our objects are always
plain objects, so the `constructor === Object` conjunct holds). -/
def isEmptyObject (o : JsObj) : Bool :=
  o.isEmpty

/-- JavaScript `String(v)` coercion for the values we model. -/
def jsToString : JsValue → String
  | .undefined => "undefined"
  | .null => "null"
  | .bool true => "true"
  | .bool false => "false"
  | .num n => toString n
  | .str s => s
  | .obj _ => "[object Object]"
  | .promise _ => "[object Promise]"

/-- Upper-case hexadecimal digit for `n < 16`. -/
def hexUpper (n : Nat) : Char :=
  if n < 10 then Char.ofNat (48 + n) else Char.ofNat (55 + n)

/-- `%XY` escape of one byte. -/
def percentByte (b : Nat) : List Char :=
  ['%', hexUpper (b / 16), hexUpper (b % 16)]

/-- UTF-8 bytes of a code point. -/
def utf8Bytes (n : Nat) : List Nat :=
  if n < 128 then [n]
  else if n < 2048 then [192 + n / 64, 128 + n % 64]
  else if n < 65536 then [224 + n / 4096, 128 + (n / 64) % 64, 128 + n % 64]
  else [240 + n / 262144, 128 + (n / 4096) % 64, 128 + (n / 64) % 64, 128 + n % 64]

/-- Characters `encodeURIComponent` leaves unescaped. -/
def isUnreservedURI (c : Char) : Bool :=
  c.isAlphanum || c == '-' || c == '_' || c == '.' || c == '!' || c == '~' ||
    c == '*' || c == Char.ofNat 39 || c == '(' || c == ')'

/-- `encodeURIComponent`. -/
def encodeURIComponent (s : String) : String :=
  String.mk (s.data.foldr
    (fun c acc =>
      (if isUnreservedURI c then [c]
       else (utf8Bytes c.toNat).foldr (fun b a => percentByte b ++ a) []) ++ acc)
    [])

/-- An interpolation pattern: an anchored matcher that, at the head of the
input, either matches (yielding the matched text, the captured name and the
remaining characters) or fails.  Every pattern used by this module consumes
at least one character when it matches, which also drives the termination of
the replacement scan. -/
structure Pattern where
  matchAt : List Char → Option (String × String × List Char)
  consumes : ∀ cs m n r, matchAt cs = some (m, n, r) → r.length < cs.length

/-- `\w` of the default pattern: ASCII word character. -/
def isWordChar (c : Char) : Bool :=
  c.isAlpha || c.isDigit || c == '_'

/-- Maximal word-character run at the head of the input. -/
def takeWord : List Char → List Char × List Char
  | [] => ([], [])
  | c :: cs =>
    if isWordChar c then
      let (w, r) := takeWord cs
      (c :: w, r)
    else ([], c :: cs)

theorem takeWord_append : ∀ cs : List Char, (takeWord cs).1 ++ (takeWord cs).2 = cs := by
  intro cs
  induction cs with
  | nil => rfl
  | cons c cs ih =>
    by_cases h : isWordChar c = true
    · simp [takeWord, h]
      exact ih
    · simp [takeWord, h]

/-- Anchored matcher of the default pattern `\{\{(\w+)\}\}`: two opening
braces, a maximal nonempty word-character run, two closing braces. -/
def matchDefaultAt (cs : List Char) : Option (String × String × List Char) :=
  match cs with
  | '{' :: '{' :: rest =>
    if (takeWord rest).1.isEmpty then none
    else
      match (takeWord rest).2 with
      | '}' :: '}' :: rest2 =>
        some (String.mk ('{' :: '{' :: ((takeWord rest).1 ++ ['}', '}'])),
          String.mk (takeWord rest).1, rest2)
      | _ => none
  | _ => none

theorem matchDefaultAt_consumes :
    ∀ cs m n r, matchDefaultAt cs = some (m, n, r) → r.length < cs.length := by
  intro cs m n r h
  unfold matchDefaultAt at h
  split at h
  case _ rest =>
    have hlen := takeWord_append rest
    by_cases hw : (takeWord rest).1.isEmpty
    · simp [hw] at h
    · rw [if_neg hw] at h
      split at h
      case _ rest2 heq2 =>
        simp only [Option.some.injEq, Prod.mk.injEq] at h
        obtain ⟨hm, hn, hr⟩ := h
        subst hr
        have : rest.length = (takeWord rest).1.length + (rest2.length + 2) := by
          conv_lhs => rw [← hlen]
          rw [heq2]
          simp [List.length_append, List.length_cons]
        simp only [List.length_cons]
        omega
      case _ => simp at h
  case _ => simp at h

/-- The default interpolation pattern `/\{\{(\w+)\}\}/gi`. -/
def defaultPattern : Pattern :=
  ⟨matchDefaultAt, matchDefaultAt_consumes⟩

/-- `String.prototype.replace` with a global pattern and a replacer callback
receiving the matched text and the captured group: scan left to right, at
each position emit the callback's output and skip past the match, or emit
the character and advance. -/
def replaceScan (p : Pattern) (repl : String → String → String) (cs : List Char) : List Char :=
  match h : p.matchAt cs with
  | some (m, n, r) => (repl m n).data ++ replaceScan p repl r
  | none =>
    match cs with
    | [] => []
    | c :: cs2 => c :: replaceScan p repl cs2
termination_by cs.length
decreasing_by
  · exact p.consumes _ _ _ _ h
  · simp

theorem replaceScan_some (p : Pattern) (repl : String → String → String) {cs m n r}
    (h : p.matchAt cs = some (m, n, r)) :
    replaceScan p repl cs = (repl m n).data ++ replaceScan p repl r := by
  rw [replaceScan]
  split
  case _ m2 n2 r2 heq =>
    rw [h] at heq
    injection heq with heq
    injection heq with h1 heq
    injection heq with h2 h3
    subst h1; subst h2; subst h3
    rfl
  case _ heq => rw [h] at heq; cases heq

theorem replaceScan_none_cons (p : Pattern) (repl : String → String → String) {c cs}
    (h : p.matchAt (c :: cs) = none) :
    replaceScan p repl (c :: cs) = c :: replaceScan p repl cs := by
  rw [replaceScan]
  split
  case _ m2 n2 r2 heq => rw [h] at heq; cases heq
  case _ => rfl

theorem replaceScan_nil (p : Pattern) (repl : String → String → String) :
    replaceScan p repl [] = [] := by
  rw [replaceScan]
  split
  case _ m2 n2 r2 heq => exact absurd (p.consumes _ _ _ _ heq) (by simp)
  case _ => rfl

/-- One segment of a URL template relative to a pattern: either a literal
character or a placeholder with its matched text and captured name. -/
inductive Seg where
  | lit (c : Char)
  | ph (m : String) (name : String)

/-- Decomposition of a template into segments: the placeholders the pattern
matches in a left-to-right scan, and the characters between them. -/
def tokenize (p : Pattern) (cs : List Char) : List Seg :=
  match h : p.matchAt cs with
  | some (m, n, r) => .ph m n :: tokenize p r
  | none =>
    match cs with
    | [] => []
    | c :: cs2 => .lit c :: tokenize p cs2
termination_by cs.length
decreasing_by
  · exact p.consumes _ _ _ _ h
  · simp

theorem tokenize_some (p : Pattern) {cs m n r} (h : p.matchAt cs = some (m, n, r)) :
    tokenize p cs = .ph m n :: tokenize p r := by
  rw [tokenize]
  split
  case _ m2 n2 r2 heq =>
    rw [h] at heq
    injection heq with heq
    injection heq with h1 heq
    injection heq with h2 h3
    subst h1; subst h2; subst h3
    rfl
  case _ heq => rw [h] at heq; cases heq

theorem tokenize_none_cons (p : Pattern) {c cs} (h : p.matchAt (c :: cs) = none) :
    tokenize p (c :: cs) = .lit c :: tokenize p cs := by
  rw [tokenize]
  split
  case _ m2 n2 r2 heq => rw [h] at heq; cases heq
  case _ => rfl

theorem tokenize_nil (p : Pattern) : tokenize p [] = [] := by
  rw [tokenize]
  split
  case _ m2 n2 r2 heq => exact absurd (p.consumes _ _ _ _ heq) (by simp)
  case _ => rfl

/-- Rendering of one segment under a replacer callback: literals verbatim,
placeholders through the callback. -/
def segRender (repl : String → String → String) : Seg → List Char
  | .lit c => [c]
  | .ph m n => (repl m n).data

/-- The scan-and-replace loop treats each placeholder independently: it
renders exactly the segments of the template, each through the callback. -/
theorem replaceScan_eq_segments (p : Pattern) (repl : String → String → String)
    (cs : List Char) :
    replaceScan p repl cs = ((tokenize p cs).map (segRender repl)).flatten := by
  suffices h : ∀ len (cs2 : List Char), cs2.length = len →
      replaceScan p repl cs2 = ((tokenize p cs2).map (segRender repl)).flatten from
    h cs.length cs rfl
  intro len
  induction len using Nat.strong_induction_on with
  | _ len ih =>
    intro cs2 hn
    match hm : p.matchAt cs2 with
    | some (m, n, r) =>
      rw [replaceScan_some p repl hm, tokenize_some p hm]
      have hr : r.length < len := hn ▸ p.consumes _ _ _ _ hm
      rw [ih r.length hr r rfl]
      simp [segRender]
    | none =>
      match cs2 with
      | [] => rw [replaceScan_nil, tokenize_nil]; rfl
      | c :: cs3 =>
        rw [replaceScan_none_cons p repl hm, tokenize_none_cons p hm]
        have h2 : cs3.length < len := by
          subst hn; simp
        rw [ih cs3.length h2 cs3 rfl]
        simp [segRender]

/-- A thrown JavaScript error: a plain `Error` or a `TypeError`. -/
inductive JsError where
  | jsError (message : String)
  | typeError (message : String)
deriving DecidableEq

/-- The message carried by an error. -/
def JsError.message : JsError → String
  | .jsError m => m
  | .typeError m => m

/-- The option fields other than `parsers`, i.e. the part of the merged
options record a parser can depend on.  (In the source the parsers receive
the whole merged options object; the `parsers` list itself is split off here
only because a list of parsers cannot occur inside the record the parsers
themselves take as an argument.) -/
structure OptionsCore where
  interpolationPattern : Pattern
  transformPayload : JsObj → JsObj
  transformHeaders : JsObj → JsObj
  inputMap : Option (List (String × String))
  headersMap : Option (List (String × String))
  withCredentials : Bool

/-- A parser: `(currentBody, isFailure, originalPayload, options, statusCode)`
to the next body, possibly throwing.  Generic in the type of the options
argument, which is passed through the chain untouched. -/
def Parser (ω : Type) : Type :=
  JsValue → Bool → JsValue → ω → JsValue → Except JsError JsValue

/-- A JavaScript `parsers` value: either a single function or an array of
functions, as distinguished by the source's `Array.isArray` check. -/
inductive ParsersField (ω : Type) where
  | single (f : Parser ω)
  | arr (ps : List (Parser ω))

/-- `invokeParsers` from the source: wrap a non-array argument in a
one-element array, then `reduce` over it starting from the (frozen)
response body.  A thrown error aborts the remaining reductions, which the
`Except` bind models. -/
def invokeParsers {ω : Type} (parsers : ParsersField ω) (body : JsValue)
    (isFailure : Bool) (payload : JsValue) (options : ω) (statusCode : JsValue) :
    Except JsError JsValue :=
  let parsersArr :=
    match parsers with
    | .single p => [p]
    | .arr ps => ps
  let originalBody := body
  parsersArr.foldl
    (fun interBody parser =>
      interBody.bind (fun b => parser b isFailure payload options statusCode))
    (.ok originalBody)

/-- Full merged options: the core fields plus the parser chain. -/
structure Options extends OptionsCore where
  parsers : List (Parser OptionsCore)

/-- A partial options record as supplied by a caller: absent fields do not
override, the `parsers` field may hold a single function or an array. -/
structure PartialOptions where
  interpolationPattern : Option Pattern := none
  transformPayload : Option (JsObj → JsObj) := none
  transformHeaders : Option (JsObj → JsObj) := none
  inputMap : Option (Option (List (String × String))) := none
  headersMap : Option (Option (List (String × String))) := none
  withCredentials : Option Bool := none
  parsers : Option (ParsersField OptionsCore) := none

/-- `defaultOptions` from the source (its initial state, before any call to
`setDefaultInterpolationPattern`). -/
def defaultOptions : Options :=
  { interpolationPattern := defaultPattern
    transformPayload := fun p => p
    transformHeaders := fun h => h
    inputMap := none
    headersMap := none
    withCredentials := false
    parsers := [] }

/-- The `parsers:` property of one merge step:
`options.parsers ? [...merged.parsers, ...options.parsers] : merged.parsers`.
Spreading a single function (a truthy non-iterable) throws a `TypeError`. -/
def mergeParsers (merged : List (Parser OptionsCore)) :
    Option (ParsersField OptionsCore) → Except JsError (List (Parser OptionsCore))
  | none => .ok merged
  | some (.arr ps) => .ok (merged ++ ps)
  | some (.single _) => .error (.typeError "options.parsers is not iterable")

/-- Pick the overriding value when the more specific record sets the field. -/
def firstSet {α : Type} : Option α → α → α
  | some v, _ => v
  | none, d => d

/-- One step of the reduce inside `mergeOptions`:
`{ ...merged, ...options, parsers: ... }`. -/
def mergeStep (merged : Options) (o : PartialOptions) : Except JsError Options :=
  (mergeParsers merged.parsers o.parsers).map (fun ps =>
    { interpolationPattern := firstSet o.interpolationPattern merged.interpolationPattern
      transformPayload := firstSet o.transformPayload merged.transformPayload
      transformHeaders := firstSet o.transformHeaders merged.transformHeaders
      inputMap := firstSet o.inputMap merged.inputMap
      headersMap := firstSet o.headersMap merged.headersMap
      withCredentials := firstSet o.withCredentials merged.withCredentials
      parsers := ps })

/-- `mergeOptions(...args)`: reduce over the argument records starting from
the current process-wide `defaultOptions` record `st`. -/
def mergeOptions (st : Options) (args : List PartialOptions) : Except JsError Options :=
  args.foldlM mergeStep st

/-- `setDefaultInterpolationPattern`: mutate the `interpolationPattern`
field of the process-wide `defaultOptions` cell, modelled as explicit state
passing. -/
def setDefaultInterpolationPattern (interpolationPattern : Pattern) (st : Options) :
    Options :=
  { st with interpolationPattern := interpolationPattern }

/-- `buildUrl`: replace each placeholder whose captured name is an own key
of the params with the percent-encoded string form of its value, leave the
matched text unchanged otherwise. -/
def buildUrl (opts : OptionsCore) (apiUrl : String) (urlParams : JsObj) : String :=
  String.mk (replaceScan opts.interpolationPattern
    (fun m p1 =>
      if hasOwn urlParams p1 then encodeURIComponent (jsToString (oget urlParams p1))
      else m)
    apiUrl.data)

/-- The reduce inside `getTransformedPayload` / `getHeaders`: over the keys
of the map, assign `data[map[key]] = payload[key]` (so a key absent from the
payload still lands in the result, with value `undefined`). -/
def mapByKeys (m : List (String × String)) (payload : JsValue) : JsObj :=
  m.foldl (fun data kv => oset data kv.2 (jget payload kv.1)) []

/-- `getTransformedPayload`: map the payload through `inputMap` when both
are truthy (otherwise start from `{}`), apply `transformPayload`, and turn
an empty result into `undefined`. -/
def getTransformedPayload (opts : OptionsCore) (payload : JsValue) : Option JsObj :=
  let mapped : JsObj :=
    match opts.inputMap with
    | some im => if truthy payload then mapByKeys im payload else []
    | none => []
  let t := opts.transformPayload mapped
  if isEmptyObject t then none else some t

/-- `getHeaders`: symmetric to `getTransformedPayload` with `headersMap` and
`transformHeaders`. -/
def getHeaders (opts : OptionsCore) (payload : JsValue) : Option JsObj :=
  let mapped : JsObj :=
    match opts.headersMap with
    | some hm => if truthy payload then mapByKeys hm payload else []
    | none => []
  let t := opts.transformHeaders mapped
  if isEmptyObject t then none else some t

/-- The axios options object: fields are only set when the source sets
them. -/
structure AxiosOptions where
  headers : Option JsObj
  withCredentials : Option Bool
  params : Option JsObj

/-- The single transport request issued by one `call` invocation. -/
structure Request where
  method : String
  url : String
  data : Option JsObj
  opts : AxiosOptions

/-- How the transport settles: a 2xx response, a non-2xx response attached
to the rejection, or a rejection with no response at all. -/
inductive TransportOutcome where
  | success (data : JsValue) (status : Int)
  | httpError (data : JsValue) (status : Int)
  | networkError (e : JsError)

/-- `method.toLowerCase()` (ASCII case mapping, which covers the method
names this module distinguishes). -/
def jsToLower (s : String) : String :=
  String.mk (s.data.map Char.toLower)

/-- The request `call` hands to the transport: full URL, mapped payload and
headers, `withCredentials` only when true, the payload as `params` for
`get`, as the body for `post`/`put`/`patch`, and suppressed for `delete`;
`none` for an unsupported method. -/
def callRequest (opts : OptionsCore) (method apiUrl : String) (payload : JsValue) :
    Option Request :=
  let fullUrl := buildUrl opts apiUrl (asParams payload)
  let transformedPayload := getTransformedPayload opts payload
  let headers := getHeaders opts payload
  let ax : AxiosOptions :=
    { headers := headers
      withCredentials := if opts.withCredentials then some true else none
      params := none }
  match jsToLower method with
  | "get" => some { method := "get", url := fullUrl, data := none,
                    opts := { ax with params := transformedPayload } }
  | "delete" => some { method := "delete", url := fullUrl, data := none, opts := ax }
  | "post" => some { method := "post", url := fullUrl, data := transformedPayload,
                     opts := ax }
  | "put" => some { method := "put", url := fullUrl, data := transformedPayload,
                    opts := ax }
  | "patch" => some { method := "patch", url := fullUrl, data := transformedPayload,
                      opts := ax }
  | _ => none

/-- `call(payload)`: build and dispatch the one request; an unsupported
method throws `Invalid method <method>`; a rejection without a response is
rethrown untouched; otherwise the parser chain runs over the (possibly
failure) body with the original payload, merged options and status code. -/
def call (opts : Options) (method apiUrl : String) (payload : JsValue)
    (transport : Request → TransportOutcome) : Except JsError JsValue :=
  match callRequest opts.toOptionsCore method apiUrl payload with
  | none => .error (.jsError ("Invalid method " ++ method))
  | some req =>
    match transport req with
    | .success d s =>
      invokeParsers (.arr opts.parsers) d false payload opts.toOptionsCore (.num s)
    | .httpError d s =>
      invokeParsers (.arr opts.parsers) d true payload opts.toOptionsCore (.num s)
    | .networkError e => .error e

/-- A resource value: the method, URL template and merged options snapshot
taken at creation time. -/
structure Resource where
  method : String
  apiUrl : String
  options : Options

/-- `createResourceFactory(factoryDefaults)(method, apiUrl, options)`:
merge the current process-wide defaults `st` with the factory defaults and
the per-resource options, and close over the result.  Option merging can
throw (see `mergeParsers`), in which case no resource is produced. -/
def createResource (st : Options) (factoryDefaults : PartialOptions)
    (method apiUrl : String) (options : PartialOptions) : Except JsError Resource :=
  (mergeOptions st [factoryDefaults, options]).map
    (fun merged => { method := method, apiUrl := apiUrl, options := merged })

/-- `resource.buildUrl(urlParams)`. -/
def Resource.buildUrl (r : Resource) (urlParams : JsObj) : String :=
  PlainApi.buildUrl r.options.toOptionsCore r.apiUrl urlParams

/-- `resource.call(payload)` against a given transport. -/
def Resource.call (r : Resource) (payload : JsValue)
    (transport : Request → TransportOutcome) : Except JsError JsValue :=
  PlainApi.call r.options r.method r.apiUrl payload transport

/-- The method names the dispatcher supports. -/
def validMethods : List String :=
  ["get", "post", "put", "patch", "delete"]

/-- `await v`: promise resolution adopts nested promises, so awaiting fully
unwraps; awaiting a non-promise returns it unchanged. -/
def awaitJs : JsValue → JsValue
  | .promise v => awaitJs v
  | .undefined => .undefined
  | .null => .null
  | .bool b => .bool b
  | .num n => .num n
  | .str s => .str s
  | .obj o => .obj o

/-- Modelled from the spec: the parser chain as the specification describes
it, each parser's result awaited in order before the next parser runs, so
every parser receives the resolved body of its predecessor.  Stated for
comparison with `invokeParsers`, which is the the code's actual chain. -/
def invokeParsersAwaited {ω : Type} (parsers : List (Parser ω)) (body : JsValue)
    (isFailure : Bool) (payload : JsValue) (options : ω) (statusCode : JsValue) :
    Except JsError JsValue :=
  parsers.foldl
    (fun interBody parser =>
      interBody.bind (fun b =>
        (parser b isFailure payload options statusCode).map awaitJs))
    (.ok body)

/-- Rendering of one template segment against the params: a placeholder is
substituted by the percent-encoded string form of the param value exactly
when its captured name is an own key; otherwise its matched text stands
verbatim. -/
def renderSeg (urlParams : JsObj) : Seg → List Char
  | .lit c => [c]
  | .ph m name =>
    if hasOwn urlParams name then
      (encodeURIComponent (jsToString (oget urlParams name))).data
    else m.data

/-- The parser list a `parsers` option contributes on merge. -/
def plist {ω : Type} : Option (ParsersField ω) → List (Parser ω)
  | none => []
  | some (.arr ps) => ps
  | some (.single f) => [f]

/-- Whether a `parsers` option survives the merge's array spread (absent, or
an array). -/
def isArrayish {ω : Type} : Option (ParsersField ω) → Bool
  | some (.single _) => false
  | _ => true

/-- The three-way merge the spec describes: every scalar field taken from
the most specific record that sets it, the parser lists concatenated
defaults-first. -/
def threeWayMergeFrom (st : Options) (fd o : PartialOptions) : Options :=
  { interpolationPattern :=
      firstSet o.interpolationPattern (firstSet fd.interpolationPattern st.interpolationPattern)
    transformPayload := firstSet o.transformPayload (firstSet fd.transformPayload st.transformPayload)
    transformHeaders := firstSet o.transformHeaders (firstSet fd.transformHeaders st.transformHeaders)
    inputMap := firstSet o.inputMap (firstSet fd.inputMap st.inputMap)
    headersMap := firstSet o.headersMap (firstSet fd.headersMap st.headersMap)
    withCredentials := firstSet o.withCredentials (firstSet fd.withCredentials st.withCredentials)
    parsers := st.parsers ++ plist fd.parsers ++ plist o.parsers }

theorem string_data_append (s t : String) : (s ++ t).data = s.data ++ t.data := by
  cases s; cases t; rfl

theorem foldl_parsers_error {ω : Type} (rest : List (Parser ω)) (isFailure : Bool)
    (payload : JsValue) (options : ω) (statusCode : JsValue) (e : JsError) :
    rest.foldl
      (fun (interBody : Except JsError JsValue) (parser : Parser ω) =>
        interBody.bind (fun b => parser b isFailure payload options statusCode))
      (.error e) = .error e := by
  induction rest with
  | nil => rfl
  | cons f rest ih => simpa using ih

theorem foldl_parsers_bind {ω : Type} (rest : List (Parser ω)) (isFailure : Bool)
    (payload : JsValue) (options : ω) (statusCode : JsValue) (e : Except JsError JsValue) :
    rest.foldl
      (fun (interBody : Except JsError JsValue) (parser : Parser ω) =>
        interBody.bind (fun b => parser b isFailure payload options statusCode))
      e =
    e.bind (fun v =>
      rest.foldl
        (fun (interBody : Except JsError JsValue) (parser : Parser ω) =>
          interBody.bind (fun b => parser b isFailure payload options statusCode))
        (.ok v)) := by
  cases e with
  | ok v => rfl
  | error e => rw [foldl_parsers_error]; rfl

theorem invokeParsers_arr_cons {ω : Type} (f : Parser ω) (rest : List (Parser ω))
    (body : JsValue) (isFailure : Bool) (payload : JsValue) (options : ω)
    (statusCode : JsValue) :
    invokeParsers (.arr (f :: rest)) body isFailure payload options statusCode =
      (f body isFailure payload options statusCode).bind
        (fun v => invokeParsers (.arr rest) v isFailure payload options statusCode) := by
  unfold invokeParsers
  simp only [List.foldl_cons]
  rw [show ((Except.ok body).bind
      (fun b => f b isFailure payload options statusCode)) =
      f body isFailure payload options statusCode from rfl]
  exact foldl_parsers_bind rest isFailure payload options statusCode _

theorem oset_fresh (o : JsObj) (k : String) (v : JsValue) (h : hasOwn o k = false) :
    oset o k v = o ++ [(k, v)] := by
  simp [oset, h]

theorem hasOwn_append (a b : JsObj) (k : String) :
    hasOwn (a ++ b) k = (hasOwn a k || hasOwn b k) := by
  simp [hasOwn, List.any_append]

theorem foldl_oset_fresh (P : JsValue) :
    ∀ (m : List (String × String)) (acc : JsObj),
      (m.map Prod.snd).Nodup →
      (∀ kv ∈ m, hasOwn acc kv.2 = false) →
      m.foldl (fun data kv => oset data kv.2 (jget P kv.1)) acc =
        acc ++ m.map (fun kv => (kv.2, jget P kv.1)) := by
  intro m
  induction m with
  | nil => intro acc _ _; simp
  | cons kv rest ih =>
    intro acc hnd hdisj
    rw [List.map_cons] at hnd
    obtain ⟨hnotin, htail⟩ := List.nodup_cons.mp hnd
    simp only [List.foldl_cons]
    rw [oset_fresh acc kv.2 (jget P kv.1) (hdisj kv (List.mem_cons_self kv rest))]
    rw [ih (acc ++ [(kv.2, jget P kv.1)]) htail]
    · simp
    · intro kv2 hkv2
      rw [hasOwn_append]
      have h1 : hasOwn acc kv2.2 = false := hdisj kv2 (List.mem_cons_of_mem kv hkv2)
      have h2 : kv.2 ≠ kv2.2 := by
        intro hc
        exact hnotin (hc ▸ List.mem_map_of_mem Prod.snd hkv2)
      rw [h1]
      simp only [Bool.false_or]
      simp [hasOwn, h2]

theorem mapByKeys_nodup (m : List (String × String)) (P : JsValue)
    (h : (m.map Prod.snd).Nodup) :
    mapByKeys m P = m.map (fun kv => (kv.2, jget P kv.1)) := by
  unfold mapByKeys
  rw [foldl_oset_fresh P m [] h (by intro kv _; rfl)]
  rfl

theorem oget_cons_ne (k1 : String) (v : JsValue) (o : JsObj) (w : String)
    (h : (k1 == w) = false) :
    oget ((k1, v) :: o) w = oget o w := by
  unfold oget
  rw [List.find?_cons_of_neg _ (by simp [h])]

theorem oget_mapped (P : JsValue) :
    ∀ (m : List (String × String)) (k w : String),
      (m.map Prod.snd).Nodup → (k, w) ∈ m →
      oget (m.map (fun kv => (kv.2, jget P kv.1))) w = jget P k := by
  intro m
  induction m with
  | nil => intro k w _ hmem; cases hmem
  | cons kv rest ih =>
    intro k w hnd hmem
    rw [List.map_cons] at hnd
    obtain ⟨hnotin, htail⟩ := List.nodup_cons.mp hnd
    rcases List.mem_cons.mp hmem with heq | hmtail
    · subst heq
      simp [oget]
    · have hne : kv.2 ≠ w := by
        intro hc
        exact hnotin (hc ▸ List.mem_map_of_mem Prod.snd hmtail)
      simp only [List.map_cons]
      rw [oget_cons_ne _ _ _ _ (by simp [hne])]
      exact ih k w htail hmtail

theorem mergeStep_arrayish (merged : Options) (o : PartialOptions)
    (h : isArrayish o.parsers = true) :
    mergeStep merged o = .ok
      { interpolationPattern := firstSet o.interpolationPattern merged.interpolationPattern
        transformPayload := firstSet o.transformPayload merged.transformPayload
        transformHeaders := firstSet o.transformHeaders merged.transformHeaders
        inputMap := firstSet o.inputMap merged.inputMap
        headersMap := firstSet o.headersMap merged.headersMap
        withCredentials := firstSet o.withCredentials merged.withCredentials
        parsers := merged.parsers ++ plist o.parsers } := by
  match ho : o.parsers with
  | none =>
    unfold mergeStep
    rw [ho]
    simp only [mergeParsers, plist, List.append_nil]
    rfl
  | some (.arr ps) =>
    unfold mergeStep
    rw [ho]
    simp only [mergeParsers, plist]
    rfl
  | some (.single f) => rw [ho] at h; simp [isArrayish] at h

theorem mergeOptions_pair (st : Options) (fd o : PartialOptions)
    (h1 : isArrayish fd.parsers = true) (h2 : isArrayish o.parsers = true) :
    mergeOptions st [fd, o] = .ok (threeWayMergeFrom st fd o) := by
  unfold mergeOptions
  rw [List.foldlM_cons, mergeStep_arrayish st fd h1]
  show List.foldlM mergeStep _ [o] = _
  rw [List.foldlM_cons, mergeStep_arrayish _ o h2]
  show List.foldlM mergeStep _ [] = _
  rw [List.foldlM_nil]
  rfl

theorem getTransformedPayload_inputMap (opts : OptionsCore)
    (M : List (String × String)) (P : List (String × JsValue))
    (him : opts.inputMap = some M) :
    getTransformedPayload opts (.obj P) =
      (if isEmptyObject (opts.transformPayload (mapByKeys M (.obj P))) then none
       else some (opts.transformPayload (mapByKeys M (.obj P)))) := by
  unfold getTransformedPayload
  rw [him]
  rfl

theorem callRequest_valid (opts : OptionsCore) (method apiUrl : String) (payload : JsValue)
    (h : jsToLower method ∈ validMethods) :
    ∃ req, callRequest opts method apiUrl payload = some req := by
  unfold callRequest
  rcases show jsToLower method = "get" ∨ jsToLower method = "post" ∨
      jsToLower method = "put" ∨ jsToLower method = "patch" ∨
      jsToLower method = "delete" from by simpa [validMethods] using h with
    h1 | h1 | h1 | h1 | h1 <;> rw [h1] <;> exact ⟨_, rfl⟩

theorem callRequest_invalid (opts : OptionsCore) (method apiUrl : String) (payload : JsValue)
    (h : jsToLower method ∉ validMethods) :
    callRequest opts method apiUrl payload = none := by
  unfold callRequest
  generalize (if opts.withCredentials = true then some true else none : Option Bool) = wc
  split <;> first
    | rfl
    | (rename_i heq; exact absurd (by rw [heq]; simp [validMethods]) h)

/-- C1, counterexample to the claim as stated: with `inputMap = {a: "A"}`
and payload `{b: 1}` the intersection of the key sets is empty, so the
claim requires a wire object with no keys at all; the code instead
produces the object `{A: undefined}`, whose own-key set is `{"A"}`. -/
theorem c1_counterexample :
    getTransformedPayload
      { interpolationPattern := defaultPattern
        transformPayload := fun p => p
        transformHeaders := fun h => h
        inputMap := some [("a", "A")]
        headersMap := none
        withCredentials := false }
      (.obj [("b", .num 1)]) = some [("A", .undefined)] ∧
    hasOwn [("A", (.undefined : JsValue))] "A" = true :=
  ⟨rfl, rfl⟩

/-- C1 (amended): when `inputMap` holds the map `M` (with pairwise distinct
wire names) and a payload object `P` is supplied, the wire object built by
the payload mapper has exactly the keys `M[k]` for every `k` in `keys M`
(in `M`'s order), each bound to `P[k]` — which is `undefined` when `k` is
absent from `P`, rather than the key being omitted. -/
theorem c1_wire_object (opts : OptionsCore) (M : List (String × String))
    (P : List (String × JsValue))
    (him : opts.inputMap = some M)
    (ht : opts.transformPayload = fun p => p)
    (hW : (M.map Prod.snd).Nodup)
    (hne : M ≠ []) :
    getTransformedPayload opts (.obj P) = some (mapByKeys M (.obj P)) ∧
    okeys (mapByKeys M (.obj P)) = M.map Prod.snd ∧
    ∀ k w, (k, w) ∈ M → oget (mapByKeys M (.obj P)) w = jget (.obj P) k := by
  have hmap := mapByKeys_nodup M (.obj P) hW
  obtain ⟨kv, rest, hMeq⟩ : ∃ kv rest, M = kv :: rest := by
    cases M with
    | nil => exact absurd rfl hne
    | cons kv rest => exact ⟨kv, rest, rfl⟩
  refine ⟨?_, ?_, ?_⟩
  · rw [getTransformedPayload_inputMap opts M P him, ht]
    have hemp : isEmptyObject (mapByKeys M (.obj P)) = false := by
      rw [hmap, hMeq]
      rfl
    simp [hemp]
  · rw [hmap]
    simp [okeys]
  · intro k w hmem
    rw [hmap]
    exact oget_mapped (.obj P) M k w hW hmem

/-- C1 amended-claim witness at `M = [(a, A), (b, B)]`, `P = {a: 1}`. -/
theorem c1_wire_object_witness :
    (([("a", "A"), ("b", "B")] : List (String × String)).map Prod.snd).Nodup ∧
    okeys (mapByKeys [("a", "A"), ("b", "B")] (.obj [("a", JsValue.num 1)])) = ["A", "B"] := by
  refine ⟨by decide, ?_⟩
  exact (c1_wire_object
    { interpolationPattern := defaultPattern
      transformPayload := fun p => p
      transformHeaders := fun h => h
      inputMap := some [("a", "A"), ("b", "B")]
      headersMap := none
      withCredentials := false }
    [("a", "A"), ("b", "B")] [("a", JsValue.num 1)]
    rfl rfl (by decide) (by simp)).2.1

/-- C2, counterexample to the claim as stated: a first parser returning a
promise hands the promise object itself — not its resolved value — to the
second parser; the spec-modelled awaited chain hands over the resolved
value, and the two chains produce different results. -/
theorem c2_counterexample :
    invokeParsers (ω := Unit)
      (.arr [fun _ _ _ _ _ => .ok (.promise (.str "x")),
             fun b _ _ _ _ => .ok (match b with
               | .promise _ => .str "sawPromise"
               | _ => .str "sawResolved")])
      (.str "body") false .undefined () (.num 200) = .ok (.str "sawPromise") ∧
    invokeParsersAwaited (ω := Unit)
      [fun _ _ _ _ _ => .ok (.promise (.str "x")),
       fun b _ _ _ _ => .ok (match b with
         | .promise _ => .str "sawPromise"
         | _ => .str "sawResolved")]
      (.str "body") false .undefined () (.num 200) = .ok (.str "sawResolved") ∧
    JsValue.str "sawPromise" ≠ JsValue.str "sawResolved" := by
  refine ⟨rfl, rfl, ?_⟩
  intro hc
  injection hc with hc
  exact absurd hc (by decide)

/-- C2 (amended): the chain applies the parsers strictly sequentially left
to right, but synchronously — each parser receives its predecessor's raw
return value, so a parser that returns an asynchronously-resolving value
passes the unresolved promise itself to the next parser; nothing is awaited
between steps. -/
theorem c2_unawaited_chain (ω : Type) (f : Parser ω) (rest : List (Parser ω))
    (body : JsValue) (isFailure : Bool) (payload : JsValue) (options : ω)
    (statusCode : JsValue) :
    invokeParsers (.arr (f :: rest)) body isFailure payload options statusCode =
      (f body isFailure payload options statusCode).bind
        (fun v => invokeParsers (.arr rest) v isFailure payload options statusCode) :=
  invokeParsers_arr_cons f rest body isFailure payload options statusCode

/-- C3, counterexample to the claim as stated: supplying a single function
as the `parsers` option makes resource creation itself throw a `TypeError`
(the option merge spreads `options.parsers`, and a function is not
iterable), so the single function is never treated as a one-element
sequence. -/
theorem c3_counterexample :
    createResource defaultOptions {} "get" "http://x"
      { parsers := some (.single (fun b _ _ _ _ => .ok b)) } =
    .error (.typeError "options.parsers is not iterable") :=
  rfl

/-- C3 (amended): for a parser sequence `[f, g, h]` the chain result is the
left-to-right fold with `isFailure`, `payload`, `options` and `statusCode`
held constant across the steps; `invokeParsers` itself normalizes a
non-array argument to a one-element sequence, but a single-function
`parsers` option never reaches it, because the option merge throws a
`TypeError` on it at resource-creation time. -/
theorem c3_parser_fold (ω : Type)
    (pf pg ph : JsValue → Bool → JsValue → ω → JsValue → JsValue)
    (body : JsValue) (isFailure : Bool) (payload : JsValue) (options : ω)
    (statusCode : JsValue) (f : Parser ω) (g : Parser OptionsCore)
    (method apiUrl : String) :
    invokeParsers
        (.arr [fun b i p o s => .ok (pf b i p o s),
               fun b i p o s => .ok (pg b i p o s),
               fun b i p o s => .ok (ph b i p o s)])
        body isFailure payload options statusCode =
      .ok (ph (pg (pf body isFailure payload options statusCode)
                  isFailure payload options statusCode)
              isFailure payload options statusCode) ∧
    invokeParsers (.single f) body isFailure payload options statusCode =
      invokeParsers (.arr [f]) body isFailure payload options statusCode ∧
    createResource defaultOptions {} method apiUrl { parsers := some (.single g) } =
      .error (.typeError "options.parsers is not iterable") :=
  ⟨rfl, rfl, rfl⟩

/-- C4 (confirmed): `buildUrl` renders the template's segments under the
active pattern independently — every placeholder the pattern matches is
substituted by the percent-encoded string form of the param value exactly
when its captured name is an own key of the supplied params, and is left
verbatim otherwise; literal characters pass through, and no input fails. -/
theorem c4_substitute_iff_own_key (opts : OptionsCore) (apiUrl : String)
    (urlParams : JsObj) :
    (buildUrl opts apiUrl urlParams).data =
      ((tokenize opts.interpolationPattern apiUrl.data).map (renderSeg urlParams)).flatten := by
  have hseg : ∀ seg, segRender
      (fun m p1 =>
        if hasOwn urlParams p1 then encodeURIComponent (jsToString (oget urlParams p1))
        else m) seg = renderSeg urlParams seg := by
    intro seg
    cases seg with
    | lit c => rfl
    | ph m n =>
      by_cases hh : hasOwn urlParams n = true
      · simp [segRender, renderSeg, hh]
      · simp [segRender, renderSeg, hh]
  unfold buildUrl
  show replaceScan opts.interpolationPattern _ apiUrl.data = _
  rw [replaceScan_eq_segments, funext hseg]

/-- C5 (confirmed): when the transport rejects without a response attached,
`call` fails with exactly the transport's error, whatever the parsers are —
the parser chain is never consulted. -/
theorem c5_network_error_propagates (opts : Options) (method apiUrl : String)
    (payload : JsValue) (e : JsError) (h : jsToLower method ∈ validMethods) :
    call opts method apiUrl payload (fun _ => .networkError e) = .error e := by
  obtain ⟨req, hreq⟩ := callRequest_valid opts.toOptionsCore method apiUrl payload h
  unfold call
  rw [hreq]

/-- C5 witness: a GET whose transport rejects with a connection error. -/
theorem c5_network_error_witness :
    jsToLower "get" ∈ validMethods ∧
    call defaultOptions "get" "http://x" .undefined
        (fun _ => .networkError (.jsError "connection refused")) =
      .error (.jsError "connection refused") :=
  ⟨by decide, c5_network_error_propagates defaultOptions "get" "http://x" .undefined
    (.jsError "connection refused") (by decide)⟩

/-- C6 (confirmed): when the transport rejects with a response attached,
`call` raises nothing itself; it runs the parser chain with
`isFailure = true`, the error response's payload as the body and its status
as the status code. -/
theorem c6_http_error_to_parsers (opts : Options) (method apiUrl : String)
    (payload : JsValue) (d : JsValue) (s : Int) (h : jsToLower method ∈ validMethods) :
    call opts method apiUrl payload (fun _ => .httpError d s) =
      invokeParsers (.arr opts.parsers) d true payload opts.toOptionsCore (.num s) := by
  obtain ⟨req, hreq⟩ := callRequest_valid opts.toOptionsCore method apiUrl payload h
  unfold call
  rw [hreq]

/-- C6 witness: a 404 with body `"nf"` reaches the (empty) parser chain as
a failure body rather than an error. -/
theorem c6_http_error_witness :
    jsToLower "get" ∈ validMethods ∧
    call defaultOptions "get" "http://x" .undefined (fun _ => .httpError (.str "nf") 404) =
      invokeParsers (.arr defaultOptions.parsers) (.str "nf") true .undefined
        defaultOptions.toOptionsCore (.num 404) :=
  ⟨by decide, c6_http_error_to_parsers defaultOptions "get" "http://x" .undefined
    (.str "nf") 404 (by decide)⟩

/-- C7 (confirmed): a method whose lower-cased form is not one of the five
supported verbs makes `call` fail with `Invalid method <method>` — whose
message contains the method name — independently of the transport and the
parsers, so no request is attempted and no parser runs. -/
theorem c7_invalid_method (opts : Options) (method apiUrl : String) (payload : JsValue)
    (transport : Request → TransportOutcome) (h : jsToLower method ∉ validMethods) :
    call opts method apiUrl payload transport =
      .error (.jsError ("Invalid method " ++ method)) ∧
    ∃ l r : List Char, ("Invalid method " ++ method).data = l ++ method.data ++ r := by
  constructor
  · unfold call
    rw [callRequest_invalid opts.toOptionsCore method apiUrl payload h]
  · exact ⟨"Invalid method ".data, [], by rw [string_data_append]; simp⟩

/-- C7 witness at the unsupported method `TRACE`. -/
theorem c7_invalid_method_witness :
    jsToLower "TRACE" ∉ validMethods ∧
    call defaultOptions "TRACE" "http://x" .undefined
        (fun _ => .networkError (.jsError "refused")) =
      .error (.jsError "Invalid method TRACE") :=
  ⟨by decide, (c7_invalid_method defaultOptions "TRACE" "http://x" .undefined
    (fun _ => .networkError (.jsError "refused")) (by decide)).1⟩

/-- C8 (confirmed): resource options are the three-way merge of built-in
defaults, factory defaults and per-resource options — scalars from the most
specific record that sets them, parser lists concatenated in that order —
so on every call a factory-level parser runs before a resource-level one. -/
theorem c8_three_way_merge (fd o : PartialOptions)
    (h1 : isArrayish fd.parsers = true) (h2 : isArrayish o.parsers = true) :
    mergeOptions defaultOptions [fd, o] = .ok (threeWayMergeFrom defaultOptions fd o) ∧
    (threeWayMergeFrom defaultOptions fd o).parsers =
      plist fd.parsers ++ plist o.parsers ∧
    ∀ (f g : Parser OptionsCore) (body payload statusCode : JsValue)
      (isFailure : Bool) (oc : OptionsCore),
      fd.parsers = some (.arr [f]) → o.parsers = some (.arr [g]) →
      invokeParsers (.arr (threeWayMergeFrom defaultOptions fd o).parsers)
          body isFailure payload oc statusCode =
        (f body isFailure payload oc statusCode).bind
          (fun b => g b isFailure payload oc statusCode) := by
  refine ⟨mergeOptions_pair defaultOptions fd o h1 h2, by
    simp [threeWayMergeFrom, defaultOptions], ?_⟩
  intro f g body payload statusCode isFailure oc hf hg
  have hps : (threeWayMergeFrom defaultOptions fd o).parsers = [f, g] := by
    simp [threeWayMergeFrom, defaultOptions, hf, hg, plist]
  rw [hps]
  rw [invokeParsers_arr_cons]
  rfl

/-- C8 witness: a factory parser list `[f]` and a resource parser list
`[g]` merge to the concatenation `[f] ++ [g]`. -/
theorem c8_three_way_merge_witness :
    isArrayish (({ parsers := some (.arr [fun b _ _ _ _ => .ok b]) } : PartialOptions)).parsers = true ∧
    isArrayish (({ parsers := some (.arr [fun _ _ _ _ _ => .ok .null]) } : PartialOptions)).parsers = true ∧
    (threeWayMergeFrom defaultOptions
        { parsers := some (.arr [fun b _ _ _ _ => .ok b]) }
        { parsers := some (.arr [fun _ _ _ _ _ => .ok .null]) }).parsers =
      plist (({ parsers := some (.arr [fun b _ _ _ _ => .ok b]) } : PartialOptions)).parsers ++
      plist (({ parsers := some (.arr [fun _ _ _ _ _ => .ok .null]) } : PartialOptions)).parsers :=
  ⟨rfl, rfl, (c8_three_way_merge
    { parsers := some (.arr [fun b _ _ _ _ => .ok b]) }
    { parsers := some (.arr [fun _ _ _ _ _ => .ok .null]) } rfl rfl).2.1⟩

/-- C9 (confirmed): for a resource whose method lower-cases to `delete`,
the request handed to the transport carries no body and no query params,
whatever `inputMap` and the payload are. -/
theorem c9_delete_no_payload (opts : OptionsCore) (method apiUrl : String)
    (payload : JsValue) (h : jsToLower method = "delete") :
    ∃ req, callRequest opts method apiUrl payload = some req ∧
      req.data = none ∧ req.opts.params = none := by
  unfold callRequest
  rw [h]
  exact ⟨_, rfl, rfl, rfl⟩

/-- C9 witness: `DELETE` with an `inputMap` and a matching non-empty
payload still sends neither body nor params. -/
theorem c9_delete_no_payload_witness :
    jsToLower "DELETE" = "delete" ∧
    ∃ req, callRequest
        { interpolationPattern := defaultPattern
          transformPayload := fun p => p
          transformHeaders := fun h => h
          inputMap := some [("a", "A")]
          headersMap := none
          withCredentials := false }
        "DELETE" "http://x" (.obj [("a", .num 1)]) = some req ∧
      req.data = none ∧ req.opts.params = none :=
  ⟨rfl, c9_delete_no_payload _ "DELETE" "http://x" _ rfl⟩

/-- C10 (confirmed): a resource snapshots its merged options at creation —
its record is fixed by the state of the process-wide defaults at that
moment, so after `setDefaultInterpolationPattern` a previously created
resource keeps interpolating with the pattern merged at its creation while
a resource created afterwards picks up the new default. -/
theorem c10_snapshot_at_creation (st : Options) (p : Pattern) (fd o : PartialOptions)
    (method apiUrl : String)
    (hfd : fd.interpolationPattern = none) (ho : o.interpolationPattern = none)
    (h1 : isArrayish fd.parsers = true) (h2 : isArrayish o.parsers = true) :
    createResource st fd method apiUrl o =
      .ok { method := method, apiUrl := apiUrl, options := threeWayMergeFrom st fd o } ∧
    (threeWayMergeFrom st fd o).interpolationPattern = st.interpolationPattern ∧
    createResource (setDefaultInterpolationPattern p st) fd method apiUrl o =
      .ok { method := method, apiUrl := apiUrl,
            options := threeWayMergeFrom (setDefaultInterpolationPattern p st) fd o } ∧
    (threeWayMergeFrom (setDefaultInterpolationPattern p st) fd o).interpolationPattern = p := by
  refine ⟨?_, ?_, ?_, ?_⟩
  · unfold createResource
    rw [mergeOptions_pair st fd o h1 h2]
    rfl
  · simp [threeWayMergeFrom, hfd, ho, firstSet]
  · unfold createResource
    rw [mergeOptions_pair (setDefaultInterpolationPattern p st) fd o h1 h2]
    rfl
  · simp [threeWayMergeFrom, setDefaultInterpolationPattern, hfd, ho, firstSet]

/-- A pattern that never matches, used as a distinct replacement default. -/
def neverPattern : Pattern :=
  ⟨fun _ => none, by intro cs m n r h; exact absurd h (by simp)⟩

/-- C10 witness: with no per-factory or per-resource override, the merged
pattern is the process default at creation; after the setter runs it is the
newly installed pattern. -/
theorem c10_snapshot_witness :
    ({} : PartialOptions).interpolationPattern = none ∧
    isArrayish ({} : PartialOptions).parsers = true ∧
    (threeWayMergeFrom defaultOptions {} {}).interpolationPattern =
      defaultOptions.interpolationPattern ∧
    (threeWayMergeFrom (setDefaultInterpolationPattern neverPattern defaultOptions)
        {} {}).interpolationPattern = neverPattern :=
  ⟨rfl, rfl,
    (c10_snapshot_at_creation defaultOptions neverPattern {} {} "get" "http://x"
      rfl rfl rfl rfl).2.1,
    (c10_snapshot_at_creation defaultOptions neverPattern {} {} "get" "http://x"
      rfl rfl rfl rfl).2.2.2⟩

end PlainApi
